import Mathlib

/-!
Verification of the Foundry dataset-creation pipeline.

This file gives a shallow embedding, in Lean 4, of the pipeline control and
concurrency layer of the Foundry repository:

* `PipelineState` and its `add_annotations` merge step
  (src/pipelines/adk_state.py);
* the perceptual-hash duplicate index used by `MinerService.mine`
  (src/services/miner.py) and `CuratorAgent.curate` (src/agents/curator.py);
* the stage loop of `FoundryPipeline.run` (src/pipelines/foundry_pipeline.py);
* the normalized-to-pixel conversion `calculate_bbox`
  (src/tools/bbox_calculator.py);
* the response-validation and retry logic of `AnnotatorService`
  (src/services/annotator.py);
* the iterative quality-refinement loop
  `AnnotationRefinementLoop.annotate_with_refinement`
  (src/agents/quality_loop.py).

Python numbers are modelled as exact rationals (`ℚ`) or naturals, Python
dicts as insertion-ordered association lists, and Python exceptions as
`Except`.  External collaborators (the vision/language model, the image
search and download machinery) are modelled as oracle functions supplied as
arguments, so every theorem quantifies over all possible collaborator
behaviours.
-/

namespace Foundry

/-! ## Pipeline state (src/pipelines/adk_state.py)

`PipelineState` tracks the dataset being accumulated.  The dataset is a
Python dict keyed by filename; we model it as an insertion-ordered
association list, with `dictInsert` reproducing Python's `d[k] = v`
(overwrite in place if the key exists, else append). -/

/-- Python `d[k] = v` on an insertion-ordered dict: if `k` is already a key,
its entry is overwritten in place; otherwise `(k, v)` is appended. -/
def dictInsert {α : Type} (d : List (String × α)) (k : String) (v : α) :
    List (String × α) :=
  if d.any (fun p => p.1 == k) then
    d.map (fun p => if p.1 == k then (k, v) else p)
  else
    d ++ [(k, v)]

/-- State of one pipeline run (`PipelineState.__init__`,
src/pipelines/adk_state.py lines 23-38). -/
structure PipelineState (α : Type) where
  target_count : Nat
  query : String
  dataset : List (String × α)
  current_count : Nat
  iteration : Nat
  total_mined : Nat
  total_curated : Nat
  total_annotated : Nat
deriving Repr, DecidableEq

/-- Initial pipeline state: empty dataset, all counters zero. -/
def PipelineState.init (α : Type) (target : Nat) (q : String) :
    PipelineState α :=
  ⟨target, q, [], 0, 0, 0, 0, 0⟩

/-- `PipelineState.should_stop` (adk_state.py line 71):
`current_count >= target_count`. -/
def PipelineState.should_stop {α : Type} (s : PipelineState α) : Bool :=
  s.target_count ≤ s.current_count

/-- `PipelineState.get_needed_count` (adk_state.py line 120):
`max(0, target_count - current_count)`; Lean's truncated `Nat` subtraction
is exactly `max 0` of the integer difference. -/
def PipelineState.get_needed_count {α : Type} (s : PipelineState α) : Nat :=
  s.target_count - s.current_count

/-- `PipelineState.increment_iteration` (adk_state.py line 75). -/
def PipelineState.increment_iteration {α : Type} (s : PipelineState α) :
    PipelineState α :=
  { s with iteration := s.iteration + 1 }

/-- `PipelineState.record_mining` (adk_state.py line 80). -/
def PipelineState.record_mining {α : Type} (s : PipelineState α) (n : Nat) :
    PipelineState α :=
  { s with total_mined := s.total_mined + n }

/-- `PipelineState.record_curation` (adk_state.py line 85). -/
def PipelineState.record_curation {α : Type} (s : PipelineState α) (n : Nat) :
    PipelineState α :=
  { s with total_curated := s.total_curated + n }

/-- `PipelineState.record_annotation` (adk_state.py line 90). -/
def PipelineState.record_annotation {α : Type} (s : PipelineState α) (n : Nat) :
    PipelineState α :=
  { s with total_annotated := s.total_annotated + n }

/-- The `for filename, data in annotations.items()` loop of
`PipelineState.add_annotations` (adk_state.py lines 52-59): while
`current_count < target_count`, insert the entry and increment the count;
on the first entry for which the bound fails, `break` — the remaining
entries are never looked at. -/
def addAnnotationsLoop {α : Type} (target : Nat) :
    List (String × α) → List (String × α) → Nat → List (String × α) × Nat
  | [], d, c => (d, c)
  | (k, v) :: rest, d, c =>
    if c < target then addAnnotationsLoop target rest (dictInsert d k v) (c + 1)
    else (d, c)

/-- `PipelineState.add_annotations` (adk_state.py lines 42-62): merge a batch
of annotations into the dataset, then return `should_stop()`. -/
def PipelineState.add_annotations {α : Type} (s : PipelineState α)
    (anns : List (String × α)) : PipelineState α × Bool :=
  let out := addAnnotationsLoop s.target_count anns s.dataset s.current_count
  let s' := { s with dataset := out.1, current_count := out.2 }
  (s', s'.should_stop)

/-- A run seen purely through its `add_annotations` calls: fold an arbitrary
sequence of annotation batches over the state. -/
def PipelineState.runAdds {α : Type} (s : PipelineState α)
    (batches : List (List (String × α))) : PipelineState α :=
  batches.foldl (fun st b => (st.add_annotations b).1) s

/-! ## Duplicate index (src/services/miner.py, src/agents/curator.py)

Both the miner and the curator keep a `seen_hashes` list of perceptual
hashes and reject a new image whose Hamming distance to any seen hash is
strictly below 5 (`if img_hash - seen_hash < 5`).  An `imagehash` hash is a
fixed-width bit vector and `-` is the Hamming distance; we model a
fingerprint as a list of booleans. -/

/-- A perceptual-hash fingerprint: a fixed-width bit vector. -/
abbrev Fingerprint : Type := List Bool

/-- Hamming distance between two fingerprints: the number of positions at
which the bits differ (`imagehash.ImageHash.__sub__`). -/
def hammingDist (a b : Fingerprint) : Nat :=
  (List.zipWith (fun x y => x != y) a b).count true

/-- The duplicate test shared by `MinerService.mine` (miner.py lines 74-79)
and `CuratorAgent.curate` (curator.py lines 54-59): the candidate is a
duplicate if some previously seen hash is at Hamming distance strictly
less than 5. -/
def isDuplicate (seen : List Fingerprint) (h : Fingerprint) : Bool :=
  seen.any (fun s => hammingDist h s < 5)

/-- Per-URL outcome of the download-and-hash step in `MinerService.mine`:
`none` when `save_image` fails or hashing raises (the image is skipped and
deleted), `some fp` when the image downloads and hashes to `fp`. -/
abbrev MineOutcome : Type := Option Fingerprint

/-- The `for url in urls` loop of `MinerService.mine` (miner.py lines
60-97): stop once `max_images` are saved; skip failed downloads; delete and
skip duplicates; otherwise append the hash to `seen_hashes` and the path to
`saved_paths`.  Saved paths are identified with their fingerprints.
Returns `(saved_paths, seen_hashes)`. -/
def mineLoop (maxImages : Nat) :
    List MineOutcome → List Fingerprint → List Fingerprint →
      List Fingerprint × List Fingerprint
  | [], saved, seen => (saved, seen)
  | u :: us, saved, seen =>
    if maxImages ≤ saved.length then (saved, seen)
    else
      match u with
      | none => mineLoop maxImages us saved seen
      | some fp =>
        if isDuplicate seen fp then mineLoop maxImages us saved seen
        else mineLoop maxImages us (saved ++ [fp]) (seen ++ [fp])

/-- Per-image outcome of one step of `CuratorAgent.curate`: either opening
or processing the image raised (the image is skipped), or the image hashed
to `fp` and the verification collaborator's answer to the strict YES/NO
prompt is abstracted by `accepted` (the external model is out of scope). -/
inductive CurateOutcome where
  | openFail
  | img (fp : Fingerprint) (accepted : Bool)

/-- The early-stop test of `CuratorAgent.curate` (curator.py line 46):
`max_count is not None and len(kept_images) >= max_count`. -/
def capReached (maxCount : Option Nat) (n : Nat) : Bool :=
  match maxCount with
  | some m => decide (m ≤ n)
  | none => false

/-- The `for img_path in image_paths` loop of `CuratorAgent.curate`
(curator.py lines 44-98): stop once `max_count` images are kept (when a cap
is given); skip images that fail to open; skip duplicates; append the hash
to `seen_hashes` *before* verification (so even images the model rejects
enter the index); keep the image only if the model accepts it.
Returns `(kept_images, seen_hashes)`. -/
def curateLoop (maxCount : Option Nat) :
    List CurateOutcome → List Fingerprint → List Fingerprint →
      List Fingerprint × List Fingerprint
  | [], kept, seen => (kept, seen)
  | o :: os, kept, seen =>
    if capReached maxCount kept.length then (kept, seen)
    else
      match o with
      | .openFail => curateLoop maxCount os kept seen
      | .img fp accepted =>
        if isDuplicate seen fp then curateLoop maxCount os kept seen
        else
          if accepted then
            curateLoop maxCount os (kept ++ [fp]) (seen ++ [fp])
          else curateLoop maxCount os kept (seen ++ [fp])

/-! ## Normalized-to-pixel conversion (src/tools/bbox_calculator.py)

`calculate_bbox` unpacks a 4-element `[ymin, xmin, ymax, xmax]` box and
converts it to `[x, y, width, height]` pixels; any exception (in
particular a failed unpack of a list whose length is not 4) is caught and
reported as an error dict.  Python numbers are modelled as exact
rationals. -/

/-- `calculate_bbox` (bbox_calculator.py lines 51-91).  The success dict
`{"status": "success", "bbox": [...]}` is `.ok [...]`; the error dict is
`.error`. -/
def calculate_bbox (normalized_bbox : List ℚ) (image_width image_height : ℚ) :
    Except String (List ℚ) :=
  match normalized_bbox with
  | [ymin, xmin, ymax, xmax] =>
    .ok [(xmin / 1000) * image_width,
         (ymin / 1000) * image_height,
         ((xmax - xmin) / 1000) * image_width,
         ((ymax - ymin) / 1000) * image_height]
  | _ => .error "Bbox calculation failed"

/-! ## The stage loop of `FoundryPipeline.run`
(src/pipelines/foundry_pipeline.py lines 56-205)

The miner, curator and annotator are external collaborators; they are
modelled as oracle functions indexed by the iteration number.  The local
`iteration` variable and `state.iteration` are incremented in lockstep
(lines 95-96), so a single counter models both. -/

/-- Result dict of `MinerService.mine`: its `status` field (`isSuccess`
models `status == "success"`) and its `data` list of saved image paths. -/
structure MineRes where
  isSuccess : Bool
  data : List String

/-- The three per-iteration collaborators of the fallback loop:
`miner.mine(query, needed)`, `curator.curate(query, mined_paths)` and
`annotator.annotate(annotation_query, curated_paths)`, as functions of the
iteration number and their input. -/
structure StageOracles (α : Type) where
  mine : Nat → Nat → MineRes
  curate : Nat → List String → List String
  annotate : Nat → List String → List (String × α)

/-- Lines 112-115 of foundry_pipeline.py: `mined_paths` is the mine
result's data when its status is success, else `[]`. -/
def minedPaths {α : Type} (O : StageOracles α) (iter needed : Nat) :
    List String :=
  if (O.mine iter needed).isSuccess then (O.mine iter needed).data else []

/-- The body of one iteration of the `while not state.should_stop() and
iteration < max_iterations` loop of `FoundryPipeline.run`
(foundry_pipeline.py lines 95-162):

* computes `needed = state.get_needed_count() * 2` ("Request 2x to account
  for filtering", line 104) and records `(state, needed)` in a trace of
  mining requests;
* takes `mined_paths` from the mine result (lines 112-115) and breaks if it
  is empty (lines 122-124);
* curates, and breaks if no image passes curation (lines 137-139);
* annotates, and breaks if no annotations were produced (lines 152-154);
* merges via `state.add_annotations` and breaks when the target is reached
  (lines 157-162).

The returned boolean is `true` exactly when the body falls through to the
next iteration (no `break` was taken); the remaining components are the
state, the incremented iteration counter, and the extended request
trace. -/
def runIter {α : Type} (O : StageOracles α) (s : PipelineState α)
    (iter : Nat) (tr : List (PipelineState α × Nat)) :
    Bool × PipelineState α × Nat × List (PipelineState α × Nat) :=
  let iter' := iter + 1
  let s1 := s.increment_iteration
  let needed := s1.get_needed_count * 2
  let tr1 := tr ++ [(s1, needed)]
  let mined := minedPaths O iter' needed
  let s2 := s1.record_mining mined.length
  if mined.isEmpty then (false, s2, iter', tr1)
  else
    let curated := O.curate iter' mined
    let s3 := s2.record_curation curated.length
    if curated.isEmpty then (false, s3, iter', tr1)
    else
      let anns := O.annotate iter' curated
      let s4 := s3.record_annotation anns.length
      if anns.isEmpty then (false, s4, iter', tr1)
      else
        let merged := s4.add_annotations anns
        if merged.2 then (false, merged.1, iter', tr1)
        else (true, merged.1, iter', tr1)

/-- The `while not state.should_stop() and iteration < max_iterations`
loop of `FoundryPipeline.run` (foundry_pipeline.py line 94), with
`fuel = max_iterations - iteration` as the termination measure.  Returns
the final state, the final iteration count, and the mining-request
trace. -/
def runLoop {α : Type} (O : StageOracles α) :
    Nat → PipelineState α → Nat → List (PipelineState α × Nat) →
      PipelineState α × Nat × List (PipelineState α × Nat)
  | 0, s, iter, tr => (s, iter, tr)
  | fuel + 1, s, iter, tr =>
    if s.should_stop then (s, iter, tr)
    else
      if (runIter O s iter tr).1 then
        runLoop O fuel (runIter O s iter tr).2.1 (runIter O s iter tr).2.2.1
          (runIter O s iter tr).2.2.2
      else
        ((runIter O s iter tr).2.1, (runIter O s iter tr).2.2.1,
          (runIter O s iter tr).2.2.2)

/-- The result dict returned by `FoundryPipeline.run` (foundry_pipeline.py
lines 197-205). -/
structure RunResult (α : Type) where
  status : String
  images_collected : Nat
  target : Nat
  iterations : Nat
  dataset : List (String × α)
deriving Repr

/-- `FoundryPipeline.run` (foundry_pipeline.py lines 56-205): build the
initial state, run the loop with `max_iterations = 20` (line 91), and
return the result dict — whose `status` field is the string literal
`"success"` on every path that reaches line 197. -/
def FoundryPipeline.run {α : Type} (O : StageOracles α) (target : Nat)
    (query : String) : RunResult α :=
  let s0 := PipelineState.init α target query
  let out := runLoop O 20 s0 0 []
  { status := "success"
    images_collected := out.1.dataset.length
    target := target
    iterations := out.1.iteration
    dataset := out.1.dataset }

/-- The mining-request size of `EnhancedFoundryPipeline._execute_mining`
(src/core/orchestrator.py line 338): `request_count = min(needed, 5)`. -/
def executeMiningRequestCount (needed : Nat) : Nat :=
  min needed 5

/-! ## Annotation response validation and retry
(src/services/annotator.py)

`_parse_json_robust` returns an arbitrary parsed JSON value (or `None`);
`_annotate_single_image` then shape-checks it and validates each candidate
record's bounding box.  JSON values are modelled by `JVal`; a parsed dict
exposes its `label` and `bbox` fields (the only ones the code consults).
Python exceptions raised inside the validation loop are caught by the
`except Exception` at annotator.py line 234, which fails the whole image's
attempt. -/

/-- A parsed JSON value, as consumed by the validation code: a number, a
string, an array, or a dict (of which only the `label` and `bbox` fields
are ever consulted; `bbox? = none` models a dict with no `'bbox'` key). -/
inductive JVal where
  | num (q : ℚ)
  | str (s : String)
  | arr (elems : List JVal)
  | dict (label? : Option String) (bbox? : Option JVal)

mutual

/-- Structural equality test on parsed JSON values. -/
def JVal.beq : JVal → JVal → Bool
  | .num a, .num b => a == b
  | .str a, .str b => a == b
  | .arr a, .arr b => JVal.beqList a b
  | .dict l1 b1, .dict l2 b2 => l1 == l2 && JVal.beqOpt b1 b2
  | _, _ => false

/-- Structural equality test on lists of parsed JSON values. -/
def JVal.beqList : List JVal → List JVal → Bool
  | [], [] => true
  | x :: xs, y :: ys => JVal.beq x y && JVal.beqList xs ys
  | _, _ => false

/-- Structural equality test on optional parsed JSON values. -/
def JVal.beqOpt : Option JVal → Option JVal → Bool
  | none, none => true
  | some a, some b => JVal.beq a b
  | _, _ => false

end

instance : BEq JVal := ⟨JVal.beq⟩

/-- Whether the Python string `sub` occurs as a substring of `s`
(the semantics of `sub in s` for strings). -/
def strContains (s sub : String) : Bool :=
  decide (1 < (s.splitOn sub).length) || decide (sub = "")

/-- The generator body `0 <= coord <= 1000` of the `all(...)` check at
annotator.py line 217, evaluated left to right with Python's `all`
short-circuiting: a numeric coordinate yields its range check; comparing a
non-number raises `TypeError` — but only if it is reached, i.e. if no
earlier coordinate already failed its range check. -/
def allInRangeE : List JVal → Except String Bool
  | [] => .ok true
  | c :: rest =>
    match c with
    | .num q => if 0 ≤ q ∧ q ≤ 1000 then allInRangeE rest else .ok false
    | _ => .error "TypeError: comparison with non-number"

/-- One pass of the record filter at annotator.py lines 213-220: does this
candidate record survive (`.ok true`), get dropped (`.ok false`), or raise?
`'bbox' in item` is a key test for dicts, a membership test for lists
(raising on the subsequent `item['bbox']` if it succeeds), a substring test
for strings (likewise raising on success), and raises outright for
numbers. -/
def validateRecord : JVal → Except String Bool
  | .dict _ none => .ok false
  | .dict _ (some v) =>
    match v with
    | .arr bbox => if bbox.length = 4 then allInRangeE bbox else .ok false
    | _ => .ok false
  | .arr elems =>
    if elems.contains (JVal.str "bbox") then
      .error "TypeError: list indices must be integers"
    else .ok false
  | .str s =>
    if strContains s "bbox" then
      .error "TypeError: string indices must be integers"
    else .ok false
  | .num _ => .error "TypeError: argument of type int is not iterable"

/-- The `for item in data` validation loop at annotator.py lines 212-220:
collect the records that pass, in order, propagating the first exception. -/
def validateBboxes : List JVal → Except String (List JVal)
  | [] => .ok []
  | it :: rest =>
    match validateRecord it with
    | .error e => .error e
    | .ok b =>
      match validateBboxes rest with
      | .error e => .error e
      | .ok tail => .ok (if b then it :: tail else tail)

/-- The purely boolean reading of a coordinate check: the coordinate is a
number within `[0, 1000]`. -/
def coordInRange : JVal → Bool
  | .num q => decide (0 ≤ q ∧ q ≤ 1000)
  | _ => false

/-- The purely boolean reading of record validity: the record is a dict
whose `bbox` is a list of exactly four numbers, each within `[0, 1000]`. -/
def goodRecord : JVal → Bool
  | .dict _ (some (.arr bbox)) =>
    decide (bbox.length = 4) && bbox.all coordInRange
  | _ => false

/-- The annotation data returned for one image
(`{"bboxes": ..., "width": ..., "height": ...}`, annotator.py lines
228-232). -/
structure AnnotData where
  bboxes : List JVal
  width : ℚ
  height : ℚ

/-- `_annotate_single_image` (annotator.py lines 132-236), for one attempt,
as a function of the parsed model response (`none` models both an empty
model response and a response on which every parsing strategy failed).
The shape checks of lines 199-209: the parsed value must be a non-empty
list; if its first element is a list, every length-4 list element is
converted to a `{'label': query, 'bbox': box}` dict; if its first element
is not a dict, the attempt fails.  Then the surviving records are
validated; a raised exception is caught by the `except` at line 234 and,
like an empty `valid_data`, yields `None`. -/
def annotateSingleImage (query : String) (resp : Option JVal)
    (width height : ℚ) : Option AnnotData :=
  match resp with
  | some (.arr (d0 :: ds)) =>
    let data := d0 :: ds
    let data? : Option (List JVal) :=
      match d0 with
      | .arr _ =>
        some (data.filterMap fun v =>
          match v with
          | .arr box =>
            if box.length = 4 then
              some (.dict (some query) (some (.arr box)))
            else none
          | _ => none)
      | .dict _ _ => some data
      | _ => none
    match data? with
    | none => none
    | some data' =>
      match validateBboxes data' with
      | .error _ => none
      | .ok [] => none
      | .ok valid => some ⟨valid, width, height⟩
  | _ => none

/-- What the collaborators return for one image: `dims? = none` models
`Image.open` raising in `annotate` (the image is skipped before any model
call); `resp attempt` is the parsed model response of the given retry
attempt (0-indexed). -/
structure ImgSpec where
  name : String
  dims? : Option (ℚ × ℚ)
  resp : Nat → Option JVal

/-- The `for attempt in range(self.max_retries)` retry loop of
`AnnotatorService.annotate` (annotator.py lines 273-290): try successive
attempts, stopping at the first success; `none` after all retries means
the item is an annotation failure.  (The backoff sleeps have no functional
effect and are not modelled.) -/
def annotateRetry (query : String) (resp : Nat → Option JVal)
    (width height : ℚ) : Nat → Nat → Option AnnotData
  | 0, _ => none
  | remaining + 1, attempt =>
    match annotateSingleImage query (resp attempt) width height with
    | some a => some a
    | none => annotateRetry query resp width height remaining (attempt + 1)

/-- `AnnotatorService.annotate` (annotator.py lines 238-301) with
`max_retries` attempts per image (default 3): each image is processed
independently; an image whose dimensions cannot be read, or whose every
attempt fails, is simply omitted from the result mapping. -/
def annotate (query : String) (maxRetries : Nat) (imgs : List ImgSpec) :
    List (String × AnnotData) :=
  imgs.foldl
    (fun acc img =>
      match img.dims? with
      | none => acc
      | some (w, h) =>
        match annotateRetry query img.resp w h maxRetries 0 with
        | some a => acc ++ [(img.name, a)]
        | none => acc)
    []

/-! ### Call events

To settle where the `RateLimiter` gate sits in the call path, each external
call is tagged with an event.  `RateLimiter.wait_for_token`
(src/utils/rate_limiter.py lines 15-36) would emit `rateLimiterWait`;
`model.generate_content` (annotator.py line 185) emits `modelCall`.  The
event trace of a piece of code is the sequence of such events it
performs. -/

/-- External-call events. -/
inductive Event where
  | rateLimiterWait
  | modelCall
deriving DecidableEq, Repr

/-- The event trace of `RateLimiter.wait_for_token`: a single gate pass. -/
def waitForTokenEvents : List Event :=
  [Event.rateLimiterWait]

/-- The event trace of one `_annotate_single_image` attempt: the code opens
the image and immediately calls `self.model.generate_content([prompt,
image])` (annotator.py line 185) — no rate-limiter gate precedes the
request. -/
def annotateAttemptEvents : List Event :=
  [Event.modelCall]

/-- The event trace of the per-image retry loop: one model call per attempt
actually made (the loop stops at the first successful attempt). -/
def annotateRetryEvents (query : String) (resp : Nat → Option JVal)
    (width height : ℚ) : Nat → Nat → List Event
  | 0, _ => []
  | remaining + 1, attempt =>
    annotateAttemptEvents ++
      (match annotateSingleImage query (resp attempt) width height with
       | some _ => []
       | none =>
         annotateRetryEvents query resp width height remaining (attempt + 1))

/-- The event trace of `AnnotatorService.annotate` over a batch: images are
processed in order; an image whose `Image.open` raises performs no model
call at all. -/
def annotateBatchEvents (query : String) (maxRetries : Nat)
    (imgs : List ImgSpec) : List Event :=
  (imgs.map fun img =>
    match img.dims? with
    | none => []
    | some (w, h) => annotateRetryEvents query img.resp w h maxRetries 0).flatten

/-! ## Quality refinement loop
(src/agents/quality_loop.py, `AnnotationRefinementLoop.annotate_with_refinement`,
lines 252-378)

Per round, the loop asks the annotator for boxes (feeding back the previous
round's feedback), validates them, records a history entry, keeps the
latest annotation, and stops on the first APPROVED verdict or when
`max_iterations` rounds are exhausted.  The annotator and validator are
external collaborators, modelled as oracles that may depend on the round
number and on the history accumulated so far (which determines the prompt
they are shown). -/

/-- Outcome of one round's annotation request, after the response-cleaning
and JSON-parsing code at quality_loop.py lines 276-329:

* `noText`: the model returned no text (line 306) — `continue`, no history
  entry;
* `raises`: `Image.open`, `json.loads` (even after the quote/comma fixes of
  lines 320-324), or anything else in the `try` block raised — the
  `except` at line 360 appends an error entry;
* `parsedOther`: the parse succeeded but the value is not a list (line
  327) — `continue`, no history entry;
* `parsedList`: the parse produced a list of boxes (an empty list is also
  rejected at line 327). -/
inductive RoundAnnot (β : Type) where
  | noText
  | raises (msg : String)
  | parsedOther
  | parsedList (boxes : List β)

/-- Outcome of one round's `validator.validate` call (quality_loop.py line
339) as consumed at lines 341-347: `QualityValidator.validate` itself never
raises (it catches internally), but it can return a parsed dict with no
`"status"` key, in which case `validation["status"]` raises `KeyError` —
modelled by `raises`.  `feedback` and `issues` are read with `.get`
defaults. -/
inductive RoundValid where
  | result (status feedback : String) (issues : List String)
  | raises (msg : String)

/-- One entry of `refinement_history`: either the record appended at
quality_loop.py lines 341-347 (with the round's validation verdict) or the
error record appended at lines 362-365 (which has no `validation_status`
key). -/
inductive HistEntry where
  | entry (iteration numBboxes : Nat) (status feedback : String)
      (issues : List String)
  | error (iteration : Nat) (msg : String)
deriving Repr, DecidableEq

/-- Whether a history entry is a validation entry with verdict APPROVED. -/
def HistEntry.isApproved : HistEntry → Bool
  | .entry _ _ status _ _ => status = "APPROVED"
  | .error _ _ => false

/-- The candidate annotation kept by the loop (`current_annotation`,
quality_loop.py lines 332-336). -/
structure QCandidate (β : Type) where
  bboxes : List β
  width : ℚ
  height : ℚ

/-- The `while iteration < self.max_iterations` loop of
`annotate_with_refinement` (quality_loop.py lines 270-365), with `fuel =
max_iterations - iteration`.  `annotO i hist` and `validO i hist` are the
collaborators' responses in round `i` given the history accumulated so far.
Returns `(iteration, best_annotation, refinement_history)`. -/
def refineLoop {β : Type} (annotO : Nat → List HistEntry → RoundAnnot β)
    (validO : Nat → List HistEntry → RoundValid) (width height : ℚ) :
    Nat → Nat → Option (QCandidate β) → List HistEntry →
      Nat × Option (QCandidate β) × List HistEntry
  | 0, iter, best, hist => (iter, best, hist)
  | fuel + 1, iter, best, hist =>
    let i := iter + 1
    match annotO i hist with
    | .noText => refineLoop annotO validO width height fuel i best hist
    | .raises msg =>
      refineLoop annotO validO width height fuel i best
        (hist ++ [.error i msg])
    | .parsedOther => refineLoop annotO validO width height fuel i best hist
    | .parsedList [] => refineLoop annotO validO width height fuel i best hist
    | .parsedList (b :: bs) =>
      let boxes := b :: bs
      match validO i hist with
      | .raises msg =>
        refineLoop annotO validO width height fuel i best
          (hist ++ [.error i msg])
      | .result status feedback issues =>
        let hist' := hist ++ [.entry i boxes.length status feedback issues]
        let best' : Option (QCandidate β) := some ⟨boxes, width, height⟩
        if status = "APPROVED" then (i, best', hist')
        else refineLoop annotO validO width height fuel i best' hist'

/-- The value returned by `annotate_with_refinement` when it succeeds: the
kept annotation plus the `refinement_stats` summary (quality_loop.py lines
369-373). -/
structure QResult (β : Type) where
  bboxes : List β
  width : ℚ
  height : ℚ
  iterations : Nat
  history : List HistEntry
  final_status : String

/-- `annotate_with_refinement` (quality_loop.py lines 252-378).  After the
loop, a non-null `best_annotation` is decorated with `refinement_stats`
whose `final_status` is `refinement_history[-1]["validation_status"]` when
the history is non-empty (raising `KeyError` — `.error` — if that last
entry is an error record, which has no such key) and `"UNKNOWN"` when the
history is empty; a null `best_annotation` yields `None`. -/
def annotate_with_refinement {β : Type}
    (annotO : Nat → List HistEntry → RoundAnnot β)
    (validO : Nat → List HistEntry → RoundValid)
    (maxIterations : Nat) (width height : ℚ) :
    Except String (Option (QResult β)) :=
  let out := refineLoop annotO validO width height maxIterations 0 none []
  match out.2.1 with
  | some a =>
    match out.2.2.getLast? with
    | some (.entry _ _ status _ _) =>
      .ok (some ⟨a.bboxes, a.width, a.height, out.1, out.2.2, status⟩)
    | some (.error _ _) => .error "KeyError: validation_status"
    | none => .ok (some ⟨a.bboxes, a.width, a.height, out.1, out.2.2, "UNKNOWN"⟩)
  | none => .ok none

/-! ### Concrete collaborator behaviours used in counterexamples -/

/-- A parsed record with a well-formed bounding box: four numeric
coordinates, all within `[0, 1000]`. -/
def sampleGoodRecord : JVal :=
  .dict (some "dog") (some (.arr [.num 1, .num 2, .num 3, .num 4]))

/-- A parsed record whose bounding box contains a non-numeric coordinate
(`"x"`), reached by the range check before any out-of-range number. -/
def sampleBadRecord : JVal :=
  .dict (some "dog") (some (.arr [.num 1, .str "x", .num 3, .num 4]))

/-- A concrete image whose every annotation attempt parses to a single
well-formed record. -/
def sampleImg : ImgSpec :=
  ⟨"a.jpg", some (10, 10), fun _ => some (.arr [sampleGoodRecord])⟩

/-- A collaborator behaviour under which every search fails (the miner
returns an error result with no data). -/
def failOracle : StageOracles Nat :=
  { mine := fun _ _ => ⟨false, []⟩
    curate := fun _ ps => ps
    annotate := fun _ _ => [] }

/-- A collaborator behaviour under which mining always succeeds with two
images, curation rejects everything in iteration 1 but passes everything
from iteration 2 on, and annotation succeeds on every curated image. -/
def curatorStopOracle : StageOracles Nat :=
  { mine := fun _ _ => ⟨true, ["a", "b"]⟩
    curate := fun i ps => if i = 1 then [] else ps
    annotate := fun _ ps => ps.map (fun p => (p, 0)) }

/-- A concrete annotator behaviour for the refinement loop: every round
parses to a single box. -/
def qlAnnotO : Nat → List HistEntry → RoundAnnot Unit :=
  fun _ _ => .parsedList [()]

/-- A concrete validator behaviour for the refinement loop: round 1 asks
for improvement, every later round approves. -/
def qlValidO : Nat → List HistEntry → RoundValid :=
  fun i _ =>
    if i = 1 then .result "NEEDS_IMPROVEMENT" "tighten boxes" []
    else .result "APPROVED" "" []

/-- The value `annotate_with_refinement` computes under `qlAnnotO` and
`qlValidO` with 3 allowed rounds: two rounds run, the retained history has
the round-1 improvement entry and the round-2 approval, and the reported
final status is the approval verdict. -/
def qlResult : QResult Unit :=
  ⟨[()], 10, 10, 2,
    [HistEntry.entry 1 1 "NEEDS_IMPROVEMENT" "tighten boxes" [],
     HistEntry.entry 2 1 "APPROVED" "" []], "APPROVED"⟩

/-! ## Theorems -/

/-! ### Basic lemmas about the merge step -/

theorem dictInsert_length_le {α : Type} (d : List (String × α)) (k : String)
    (v : α) : (dictInsert d k v).length ≤ d.length + 1 := by
  unfold dictInsert
  split
  · simp
  · simp

theorem addAnnotationsLoop_count {α : Type} (target : Nat)
    (anns : List (String × α)) (d : List (String × α)) (c : Nat) :
    (addAnnotationsLoop target anns d c).2 =
      c + min anns.length (target - c) := by
  induction anns generalizing d c with
  | nil => simp [addAnnotationsLoop]
  | cons kv rest ih =>
    obtain ⟨k, v⟩ := kv
    by_cases h : c < target
    · rw [addAnnotationsLoop, if_pos h, ih]
      have h1 : target - c = (target - (c + 1)) + 1 := by omega
      have h2 : min (rest.length + 1) ((target - (c + 1)) + 1) =
          min rest.length (target - (c + 1)) + 1 := by omega
      simp only [List.length_cons]
      omega
    · rw [addAnnotationsLoop, if_neg h]
      have : target - c = 0 := by omega
      simp [this]

theorem addAnnotationsLoop_len_le {α : Type} (target : Nat)
    (anns : List (String × α)) (d : List (String × α)) (c : Nat) :
    (addAnnotationsLoop target anns d c).1.length ≤
      d.length + ((addAnnotationsLoop target anns d c).2 - c) := by
  induction anns generalizing d c with
  | nil => simp [addAnnotationsLoop]
  | cons kv rest ih =>
    obtain ⟨k, v⟩ := kv
    by_cases h : c < target
    · rw [addAnnotationsLoop, if_pos h]
      have hlen := dictInsert_length_le d k v
      have hc := addAnnotationsLoop_count target rest (dictInsert d k v) (c + 1)
      have := ih (dictInsert d k v) (c + 1)
      omega
    · rw [addAnnotationsLoop, if_neg h]
      simp

theorem addAnnotationsLoop_count_le {α : Type} (target : Nat)
    (anns : List (String × α)) (d : List (String × α)) (c : Nat)
    (hc : c ≤ target) : (addAnnotationsLoop target anns d c).2 ≤ target := by
  rw [addAnnotationsLoop_count]
  omega

/-- Combined invariant preservation for one `add_annotations` call:
`len(dataset) ≤ current_count` and `current_count ≤ target_count` are both
preserved. -/
theorem add_annotations_invariant {α : Type} (s : PipelineState α)
    (anns : List (String × α))
    (hlen : s.dataset.length ≤ s.current_count)
    (hcnt : s.current_count ≤ s.target_count) :
    (s.add_annotations anns).1.dataset.length ≤
        (s.add_annotations anns).1.current_count ∧
      (s.add_annotations anns).1.current_count ≤ s.target_count := by
  unfold PipelineState.add_annotations
  refine ⟨?_, ?_⟩
  · have h1 := addAnnotationsLoop_len_le s.target_count anns s.dataset
      s.current_count
    have h2 := addAnnotationsLoop_count s.target_count anns s.dataset
      s.current_count
    simp only []
    omega
  · exact addAnnotationsLoop_count_le s.target_count anns s.dataset
      s.current_count hcnt

/-- Invariants hold in every state reachable from the initial state by a
sequence of `add_annotations` calls. -/
theorem runAdds_invariant {α : Type} (target : Nat) (q : String)
    (batches : List (List (String × α))) :
    ((PipelineState.init α target q).runAdds batches).dataset.length ≤
        ((PipelineState.init α target q).runAdds batches).current_count ∧
      ((PipelineState.init α target q).runAdds batches).current_count ≤
        target := by
  suffices h : ∀ (s : PipelineState α),
      s.dataset.length ≤ s.current_count →
      s.current_count ≤ s.target_count →
      s.target_count = target →
      (s.runAdds batches).dataset.length ≤ (s.runAdds batches).current_count ∧
        (s.runAdds batches).current_count ≤ target by
    exact h _ (by simp [PipelineState.init]) (by simp [PipelineState.init])
      rfl
  induction batches with
  | nil => intro s h1 h2 h3; subst h3; exact ⟨h1, h2⟩
  | cons b rest ih =>
    intro s h1 h2 h3
    have step := add_annotations_invariant s b h1 h2
    have htgt : (s.add_annotations b).1.target_count = s.target_count := by
      unfold PipelineState.add_annotations
      rfl
    exact ih _ step.1 (htgt ▸ step.2) (htgt.trans h3)

theorem addAnnotationsLoop_at_cap {α : Type} (target : Nat)
    (anns : List (String × α)) (d : List (String × α)) (c : Nat)
    (h : ¬c < target) : addAnnotationsLoop target anns d c = (d, c) := by
  cases anns with
  | nil => rfl
  | cons kv rest =>
    obtain ⟨k, v⟩ := kv
    rw [addAnnotationsLoop, if_neg h]

/-- C1.  For every pipeline run and every sequence of `add_annotations`
calls on `PipelineState`, the dataset never holds more than `target_count`
entries; insertion stops the moment the collected count reaches
`target_count` (the final count is the old count plus
`min (batch size) (target - count)`); and once the target is reached a
further `add_annotations` call leaves the state unchanged and returns
normally (the pending annotations are silently discarded, not an
error). -/
theorem add_annotations_caps_dataset_at_target {α : Type} (target : Nat)
    (q : String) (batches : List (List (String × α))) (s : PipelineState α)
    (anns : List (String × α)) :
    ((PipelineState.init α target q).runAdds batches).dataset.length ≤
        target ∧
      (s.add_annotations anns).1.current_count =
        s.current_count + min anns.length (s.target_count - s.current_count) ∧
      (s.should_stop = true → s.add_annotations anns = (s, true)) := by
  refine ⟨?_, ?_, ?_⟩
  · have h := runAdds_invariant (α := α) target q batches
    omega
  · simp only [PipelineState.add_annotations]
    rw [addAnnotationsLoop_count]
  · intro hstop
    obtain ⟨t, qq, d, c, it, m, cu, an⟩ := s
    have hs : t ≤ c := by
      simpa [PipelineState.should_stop] using hstop
    simp [PipelineState.add_annotations,
      addAnnotationsLoop_at_cap t anns d c (by omega),
      PipelineState.should_stop, hs]

/-- Witness for `add_annotations_caps_dataset_at_target` at concrete
inputs. -/
theorem add_annotations_caps_dataset_at_target_witness :
    ((PipelineState.init Nat 0 "q").add_annotations [("x", 5)]) =
      (PipelineState.init Nat 0 "q", true) :=
  (add_annotations_caps_dataset_at_target 0 "q" []
    (PipelineState.init Nat 0 "q") [("x", 5)]).2.2 (by rfl)

/-- C10.  After every `add_annotations` call reachable from the initial
state, `current_count` is at least `len(dataset)`; and equality can fail:
with target 2, merging two annotations that share the filename key `"a"`
overwrites the dataset entry in place while still incrementing the count
twice, so the state reports the target reached (`should_stop` true,
`current_count = 2`) with only one distinct dataset entry. -/
theorem current_count_ge_dataset_length {α : Type} (target : Nat)
    (q : String) (batches : List (List (String × α))) :
    ((PipelineState.init α target q).runAdds batches).dataset.length ≤
        ((PipelineState.init α target q).runAdds batches).current_count ∧
      ((PipelineState.init Nat 2 "q").add_annotations
          [("a", 0), ("a", 1)]).1.current_count = 2 ∧
      ((PipelineState.init Nat 2 "q").add_annotations
          [("a", 0), ("a", 1)]).1.dataset = [("a", 1)] ∧
      ((PipelineState.init Nat 2 "q").add_annotations
          [("a", 0), ("a", 1)]).2 = true := by
  refine ⟨(runAdds_invariant target q batches).1, ?_, ?_, ?_⟩ <;> rfl


/-! ### Duplicate-index lemmas -/

theorem hammingDist_comm (a b : Fingerprint) :
    hammingDist a b = hammingDist b a := by
  unfold hammingDist
  induction a generalizing b with
  | nil => cases b <;> rfl
  | cons x xs ih =>
    cases b with
    | nil => rfl
    | cons y ys =>
      simp only [List.zipWith, List.count_cons]
      rw [ih ys]
      have hxy : (x != y) = (y != x) := by cases x <;> cases y <;> rfl
      rw [hxy]

theorem not_isDuplicate_far (seen : List Fingerprint) (fp : Fingerprint)
    (h : isDuplicate seen fp = false) :
    ∀ s ∈ seen, 5 ≤ hammingDist s fp := by
  intro s hs
  unfold isDuplicate at h
  rw [List.any_eq_false] at h
  have h2 := h s hs
  simp only [decide_eq_true_eq] at h2
  rw [hammingDist_comm]
  omega

theorem pairwise_snoc_far (seen : List Fingerprint) (fp : Fingerprint)
    (hp : seen.Pairwise (fun a b => 5 ≤ hammingDist a b))
    (hdup : isDuplicate seen fp = false) :
    (seen ++ [fp]).Pairwise (fun a b => 5 ≤ hammingDist a b) := by
  rw [List.pairwise_append]
  refine ⟨hp, List.pairwise_singleton _ _, ?_⟩
  intro a ha b hb
  rw [List.mem_singleton] at hb
  rw [hb]
  exact not_isDuplicate_far seen fp hdup a ha

theorem mineLoop_cons_none (m : Nat) (us : List MineOutcome)
    (saved seen : List Fingerprint) :
    mineLoop m (none :: us) saved seen =
      if m ≤ saved.length then (saved, seen)
      else mineLoop m us saved seen := rfl

theorem mineLoop_cons_some (m : Nat) (fp : Fingerprint)
    (us : List MineOutcome) (saved seen : List Fingerprint) :
    mineLoop m (some fp :: us) saved seen =
      if m ≤ saved.length then (saved, seen)
      else
        if isDuplicate seen fp then mineLoop m us saved seen
        else mineLoop m us (saved ++ [fp]) (seen ++ [fp]) := rfl

theorem curateLoop_cons_openFail (cap : Option Nat) (os : List CurateOutcome)
    (kept seen : List Fingerprint) :
    curateLoop cap (.openFail :: os) kept seen =
      if capReached cap kept.length then (kept, seen)
      else curateLoop cap os kept seen := rfl

theorem curateLoop_cons_img (cap : Option Nat) (fp : Fingerprint)
    (accepted : Bool) (os : List CurateOutcome)
    (kept seen : List Fingerprint) :
    curateLoop cap (.img fp accepted :: os) kept seen =
      if capReached cap kept.length then (kept, seen)
      else
        if isDuplicate seen fp then curateLoop cap os kept seen
        else
          if accepted then curateLoop cap os (kept ++ [fp]) (seen ++ [fp])
          else curateLoop cap os kept (seen ++ [fp]) := rfl

theorem mineLoop_pairwise (m : Nat) (urls : List MineOutcome)
    (saved seen : List Fingerprint)
    (hp : seen.Pairwise (fun a b => 5 ≤ hammingDist a b)) :
    ((mineLoop m urls saved seen).2).Pairwise
      (fun a b => 5 ≤ hammingDist a b) := by
  induction urls generalizing saved seen with
  | nil => exact hp
  | cons u us ih =>
    cases u with
    | none =>
      rw [mineLoop_cons_none]
      by_cases hcap : m ≤ saved.length
      · rw [if_pos hcap]; exact hp
      · rw [if_neg hcap]; exact ih saved seen hp
    | some fp =>
      rw [mineLoop_cons_some]
      by_cases hcap : m ≤ saved.length
      · rw [if_pos hcap]; exact hp
      · rw [if_neg hcap]
        by_cases hdup : isDuplicate seen fp = true
        · rw [hdup, if_pos rfl]; exact ih saved seen hp
        · rw [Bool.not_eq_true] at hdup
          rw [hdup]
          simp only [Bool.false_eq_true, if_false]
          exact ih _ _ (pairwise_snoc_far seen fp hp hdup)

theorem curateLoop_pairwise (cap : Option Nat) (outs : List CurateOutcome)
    (kept seen : List Fingerprint)
    (hp : seen.Pairwise (fun a b => 5 ≤ hammingDist a b)) :
    ((curateLoop cap outs kept seen).2).Pairwise
      (fun a b => 5 ≤ hammingDist a b) := by
  induction outs generalizing kept seen with
  | nil => exact hp
  | cons o os ih =>
    cases o with
    | openFail =>
      rw [curateLoop_cons_openFail]
      by_cases hcap : capReached cap kept.length = true
      · rw [hcap, if_pos rfl]; exact hp
      · rw [Bool.not_eq_true] at hcap
        rw [hcap]
        simp only [Bool.false_eq_true, if_false]
        exact ih kept seen hp
    | img fp accepted =>
      rw [curateLoop_cons_img]
      by_cases hcap : capReached cap kept.length = true
      · rw [hcap, if_pos rfl]; exact hp
      · rw [Bool.not_eq_true] at hcap
        rw [hcap]
        simp only [Bool.false_eq_true, if_false]
        by_cases hdup : isDuplicate seen fp = true
        · rw [hdup, if_pos rfl]; exact ih kept seen hp
        · rw [Bool.not_eq_true] at hdup
          rw [hdup]
          simp only [Bool.false_eq_true, if_false]
          cases accepted with
          | false =>
            simp only [Bool.false_eq_true, if_false]
            exact ih _ _ (pairwise_snoc_far seen fp hp hdup)
          | true =>
            simp only [if_true]
            exact ih _ _ (pairwise_snoc_far seen fp hp hdup)

/-- C4.  Starting from a duplicate index in which all pairs are at Hamming
distance at least 5, the miner's and the curator's loops preserve that
invariant for every accepted fingerprint — so every pair of fingerprints
accepted into the index is at distance ≥ 5 — and a candidate at distance
strictly less than 5 from some previously accepted fingerprint is rejected:
the mining step on it leaves both the saved list and the index exactly as
they were. -/
theorem dedup_index_min_distance (m : Nat) (urls us : List MineOutcome)
    (outs : List CurateOutcome) (cap : Option Nat)
    (saved seen kept cseen : List Fingerprint) (fp : Fingerprint)
    (hseen : seen.Pairwise (fun a b => 5 ≤ hammingDist a b))
    (hcseen : cseen.Pairwise (fun a b => 5 ≤ hammingDist a b)) :
    ((mineLoop m urls saved seen).2).Pairwise
        (fun a b => 5 ≤ hammingDist a b) ∧
      ((curateLoop cap outs kept cseen).2).Pairwise
        (fun a b => 5 ≤ hammingDist a b) ∧
      (saved.length < m → isDuplicate seen fp = true →
        mineLoop m (some fp :: us) saved seen = mineLoop m us saved seen) := by
  refine ⟨mineLoop_pairwise m urls saved seen hseen,
    curateLoop_pairwise cap outs kept cseen hcseen, ?_⟩
  intro hlen hdup
  rw [mineLoop_cons_some, if_neg (by omega), hdup, if_pos rfl]

/-- Witness for `dedup_index_min_distance` at concrete inputs: with
`[true]` already accepted, the candidate `[false]` is at Hamming distance
1 < 5 and is rejected, and a candidate identical to the accepted
fingerprint leaves the index unchanged. -/
theorem dedup_index_min_distance_witness :
    ((mineLoop 2 [some [true], some [false]] [] [[true]]).2).Pairwise
        (fun a b => 5 ≤ hammingDist a b) ∧
      ((curateLoop (some 1) [CurateOutcome.img [true] true] [] []).2).Pairwise
        (fun a b => 5 ≤ hammingDist a b) ∧
      mineLoop 2 [some [true]] [] [[true]] = mineLoop 2 [] [] [[true]] := by
  have t := dedup_index_min_distance 2 [some [true], some [false]] [some [true]]
    [CurateOutcome.img [true] true] (some 1) [] [[true]] [] [] [true]
    (List.pairwise_singleton _ _) (List.Pairwise.nil)
  exact ⟨t.1, t.2.1, t.2.2 (by decide) (by decide)⟩

/-- C7.  The normalized-to-pixel conversion: on a four-element box
`[ymin, xmin, ymax, xmax]` and image size `(W, H)` it succeeds with exactly
`[x, y, w, h] = [(xmin/1000)·W, (ymin/1000)·H, ((xmax−xmin)/1000)·W,
((ymax−ymin)/1000)·H]`; it is a pure function, so converting the same box
and size twice yields identical coordinates; and it succeeds precisely on
boxes of length 4 (any other shape is caught and reported as an error). -/
theorem calculate_bbox_exact (ymin xmin ymax xmax W H : ℚ) (b : List ℚ) :
    calculate_bbox [ymin, xmin, ymax, xmax] W H =
        .ok [(xmin / 1000) * W, (ymin / 1000) * H,
             ((xmax - xmin) / 1000) * W, ((ymax - ymin) / 1000) * H] ∧
      calculate_bbox b W H = calculate_bbox b W H ∧
      ((∃ r, calculate_bbox b W H = .ok r) ↔ b.length = 4) := by
  refine ⟨rfl, rfl, ?_⟩
  constructor
  · rintro ⟨r, hr⟩
    rcases b with _ | ⟨c0, _ | ⟨c1, _ | ⟨c2, _ | ⟨c3, _ | ⟨c4, rest⟩⟩⟩⟩⟩ <;>
      simp_all [calculate_bbox]
  · intro hlen
    rcases b with _ | ⟨c0, _ | ⟨c1, _ | ⟨c2, _ | ⟨c3, _ | ⟨c4, rest⟩⟩⟩⟩⟩ <;>
      simp_all [calculate_bbox]

/-! ### Stage-loop lemmas -/

theorem increment_iteration_needed {α : Type} (s : PipelineState α) :
    s.increment_iteration.get_needed_count = s.get_needed_count := rfl

theorem runIter_target {α : Type} (O : StageOracles α) (s : PipelineState α)
    (iter : Nat) (tr : List (PipelineState α × Nat)) :
    (runIter O s iter tr).2.1.target_count = s.target_count := by
  simp only [runIter]
  repeat' split
  all_goals rfl

theorem runIter_iterations {α : Type} (O : StageOracles α)
    (s : PipelineState α) (iter : Nat) (tr : List (PipelineState α × Nat)) :
    (runIter O s iter tr).2.2.1 = iter + 1 := by
  simp only [runIter]
  repeat' split
  all_goals rfl

theorem runIter_trace {α : Type} (O : StageOracles α) (s : PipelineState α)
    (iter : Nat) (tr : List (PipelineState α × Nat)) :
    (runIter O s iter tr).2.2.2 =
      tr ++ [(s.increment_iteration,
        s.increment_iteration.get_needed_count * 2)] := by
  simp only [runIter]
  repeat' split
  all_goals rfl

theorem runIter_inv {α : Type} (O : StageOracles α) (s : PipelineState α)
    (iter : Nat) (tr : List (PipelineState α × Nat))
    (h1 : s.dataset.length ≤ s.current_count)
    (h2 : s.current_count ≤ s.target_count) :
    (runIter O s iter tr).2.1.dataset.length ≤
        (runIter O s iter tr).2.1.current_count ∧
      (runIter O s iter tr).2.1.current_count ≤ s.target_count := by
  simp only [runIter]
  repeat' split
  · exact ⟨h1, h2⟩
  · exact ⟨h1, h2⟩
  · exact ⟨h1, h2⟩
  · exact add_annotations_invariant _ _ h1 h2
  · exact add_annotations_invariant _ _ h1 h2

theorem runLoop_state_inv {α : Type} (O : StageOracles α) (fuel : Nat) :
    ∀ (s : PipelineState α) (iter : Nat) (tr : List (PipelineState α × Nat)),
      s.dataset.length ≤ s.current_count →
      s.current_count ≤ s.target_count →
      (runLoop O fuel s iter tr).1.dataset.length ≤
          (runLoop O fuel s iter tr).1.current_count ∧
        (runLoop O fuel s iter tr).1.current_count ≤ s.target_count := by
  induction fuel with
  | zero => intro s iter tr h1 h2; exact ⟨h1, h2⟩
  | succ n ih =>
    intro s iter tr h1 h2
    rw [runLoop]
    by_cases hstop : s.should_stop = true
    · rw [if_pos hstop]; exact ⟨h1, h2⟩
    · rw [if_neg hstop]
      have hi := runIter_inv O s iter tr h1 h2
      have ht := runIter_target O s iter tr
      by_cases hc : (runIter O s iter tr).1 = true
      · rw [hc, if_pos rfl]
        have hrec := ih (runIter O s iter tr).2.1 (runIter O s iter tr).2.2.1
          (runIter O s iter tr).2.2.2 hi.1 (by omega)
        refine ⟨hrec.1, ?_⟩
        omega
      · rw [Bool.not_eq_true] at hc
        rw [hc]
        simp only [Bool.false_eq_true, if_false]
        exact ⟨hi.1, hi.2⟩

theorem runLoop_trace_prop {α : Type} (O : StageOracles α) (fuel : Nat) :
    ∀ (s : PipelineState α) (iter : Nat) (tr : List (PipelineState α × Nat)),
      (∀ p ∈ tr, p.2 = p.1.get_needed_count * 2) →
      ∀ p ∈ (runLoop O fuel s iter tr).2.2,
        p.2 = p.1.get_needed_count * 2 := by
  induction fuel with
  | zero => intro s iter tr h p hp; exact h p hp
  | succ n ih =>
    intro s iter tr h p hp
    rw [runLoop] at hp
    by_cases hstop : s.should_stop = true
    · rw [if_pos hstop] at hp; exact h p hp
    · rw [if_neg hstop] at hp
      have htr : ∀ p ∈ (runIter O s iter tr).2.2.2,
          p.2 = p.1.get_needed_count * 2 := by
        rw [runIter_trace]
        intro p hp'
        rcases List.mem_append.mp hp' with hin | hin
        · exact h p hin
        · rw [List.mem_singleton] at hin
          rw [hin]
      by_cases hc : (runIter O s iter tr).1 = true
      · rw [hc, if_pos rfl] at hp
        exact ih _ _ _ htr p hp
      · rw [Bool.not_eq_true] at hc
        rw [hc] at hp
        simp only [Bool.false_eq_true, if_false] at hp
        exact htr p hp

theorem runIter_zero_curated {α : Type} (O : StageOracles α)
    (s : PipelineState α) (iter : Nat) (tr : List (PipelineState α × Nat))
    (hmine : (minedPaths O (iter + 1) (s.get_needed_count * 2)).isEmpty
      = false)
    (hcur : O.curate (iter + 1)
      (minedPaths O (iter + 1) (s.get_needed_count * 2)) = []) :
    (runIter O s iter tr).1 = false ∧
      (runIter O s iter tr).2.1.dataset = s.dataset ∧
      (runIter O s iter tr).2.2.1 = iter + 1 := by
  simp only [runIter]
  rw [increment_iteration_needed]
  rw [hmine]
  simp only [Bool.false_eq_true, if_false]
  rw [hcur]
  simp only [List.isEmpty_nil, if_true]
  exact ⟨trivial, rfl, trivial⟩

/-- C2 (counterexample).  Under a collaborator behaviour in which discovery
reports a hard error in its very first iteration and no dataset can be
assembled, `FoundryPipeline.run` still returns `status = "success"` —
there is no FAILED_EMPTY (or DONE/PARTIAL) classification — and it stops
after a single empty iteration, not two in a row. -/
theorem run_unconditional_success_counterexample :
    (FoundryPipeline.run failOracle 5 "dog").status = "success" ∧
      (FoundryPipeline.run failOracle 5 "dog").images_collected = 0 ∧
      (FoundryPipeline.run failOracle 5 "dog").iterations = 1 :=
  ⟨rfl, rfl, rfl⟩

/-- C2 (amended).  `FoundryPipeline.run` does not classify outcomes: under
every collaborator behaviour it returns a result whose `status` is the
string literal `"success"`, with `images_collected ≤ target`; callers must
compare `images_collected` against `target` themselves to detect empty or
partial runs. -/
theorem run_always_reports_success {α : Type} (O : StageOracles α)
    (target : Nat) (q : String) :
    (FoundryPipeline.run O target q).status = "success" ∧
      (FoundryPipeline.run O target q).images_collected ≤ target := by
  refine ⟨rfl, ?_⟩
  have h := runLoop_state_inv O 20 (PipelineState.init α target q) 0 []
    (by simp [PipelineState.init]) (by simp [PipelineState.init])
  show (runLoop O 20 (PipelineState.init α target q) 0 []).1.dataset.length ≤
    target
  have ht : (PipelineState.init α target q).target_count = target := rfl
  omega

/-- C5 (counterexample).  With target 5 and nothing yet collected, the
fallback loop's only mining request asks for 10 images, although
`needed = target − collected = 5`: the request is inflated, not exact. -/
theorem mining_request_inflated_counterexample :
    ((runLoop failOracle 20 (PipelineState.init Nat 5 "dog") 0 []).2.2).map
        Prod.snd = [10] ∧
      (PipelineState.init Nat 5 "dog").get_needed_count = 5 ∧
      (10 : Nat) ≠ 5 :=
  ⟨rfl, rfl, by decide⟩

/-- C5 (amended).  Every mining request recorded during a run of the
fallback loop asks for exactly `2 * (target_count − collected_count)` items
— double the remaining need, "to account for filtering" — and the enhanced
pipeline's mining stage (`EnhancedFoundryPipeline._execute_mining`)
requests `min(needed, 5)`, which never exceeds the need nor 5; neither
requests exactly `needed` in general. -/
theorem mining_requests_double_needed {α : Type} (O : StageOracles α)
    (fuel : Nat) (s : PipelineState α) (iter n : Nat)
    (p : PipelineState α × Nat)
    (hp : p ∈ (runLoop O fuel s iter []).2.2) :
    p.2 = p.1.get_needed_count * 2 ∧
      executeMiningRequestCount n ≤ n ∧ executeMiningRequestCount n ≤ 5 := by
  refine ⟨runLoop_trace_prop O fuel s iter [] (by simp) p hp, ?_, ?_⟩ <;>
    simp [executeMiningRequestCount]

/-- Witness for `mining_requests_double_needed` at a concrete run. -/
theorem mining_requests_double_needed_witness :
    ((PipelineState.init Nat 5 "dog").increment_iteration, 10).2 =
        ((PipelineState.init Nat 5 "dog").increment_iteration,
          10).1.get_needed_count * 2 ∧
      executeMiningRequestCount 7 ≤ 7 ∧ executeMiningRequestCount 7 ≤ 5 :=
  mining_requests_double_needed failOracle 20
    (PipelineState.init Nat 5 "dog") 0 7
    ((PipelineState.init Nat 5 "dog").increment_iteration, 10)
    (List.mem_singleton_self _)

/-- C6 (counterexample).  With target 1 and the iteration bound (20) far
from reached, a first iteration that mines two images but curates zero
terminates the whole run at iteration 1 with nothing collected — even
though the same collaborators would pass everything through from iteration
2 on.  The controller does not continue to the next iteration. -/
theorem zero_curated_stops_counterexample :
    (FoundryPipeline.run curatorStopOracle 1 "q").iterations = 1 ∧
      (FoundryPipeline.run curatorStopOracle 1 "q").images_collected = 0 ∧
      curatorStopOracle.curate 2 ["a", "b"] = ["a", "b"] ∧
      (1 : Nat) < 20 :=
  ⟨rfl, rfl, rfl, by decide⟩

/-- C6 (amended).  If, in an iteration where the loop has not yet stopped,
mining yields a non-empty list but curation yields zero items, the
controller `break`s out of the loop immediately — the iteration counter
advances exactly once more and the dataset is left unchanged — rather than
continuing to the next iteration without annotating. -/
theorem zero_curated_breaks_loop {α : Type} (O : StageOracles α) (n : Nat)
    (s : PipelineState α) (iter : Nat) (tr : List (PipelineState α × Nat))
    (hstop : s.should_stop = false)
    (hmine : (minedPaths O (iter + 1) (s.get_needed_count * 2)).isEmpty
      = false)
    (hcur : O.curate (iter + 1)
      (minedPaths O (iter + 1) (s.get_needed_count * 2)) = []) :
    (runLoop O (n + 1) s iter tr).2.1 = iter + 1 ∧
      (runLoop O (n + 1) s iter tr).1.dataset = s.dataset := by
  have hi := runIter_zero_curated O s iter tr hmine hcur
  rw [runLoop]
  rw [if_neg (by simp [hstop])]
  rw [hi.1]
  simp only [Bool.false_eq_true, if_false]
  exact ⟨hi.2.2, hi.2.1⟩

/-- Witness for `zero_curated_breaks_loop` at a concrete run. -/
theorem zero_curated_breaks_loop_witness :
    (runLoop curatorStopOracle 20 (PipelineState.init Nat 1 "q") 0
        []).2.1 = 0 + 1 ∧
      (runLoop curatorStopOracle 20 (PipelineState.init Nat 1 "q") 0
          []).1.dataset = (PipelineState.init Nat 1 "q").dataset :=
  zero_curated_breaks_loop curatorStopOracle 19
    (PipelineState.init Nat 1 "q") 0 [] rfl rfl rfl

/-! ### Rate-limiter call-path lemmas -/

theorem annotateRetryEvents_no_wait (query : String)
    (resp : Nat → Option JVal) (width height : ℚ) :
    ∀ (remaining attempt : Nat),
      (annotateRetryEvents query resp width height remaining attempt).count
        Event.rateLimiterWait = 0 := by
  intro remaining
  induction remaining with
  | zero => intro attempt; rfl
  | succ m ih =>
    intro attempt
    rw [annotateRetryEvents, List.count_append]
    cases hs : annotateSingleImage query (resp attempt) width height with
    | some a => simp [annotateAttemptEvents, hs]
    | none => simp [annotateAttemptEvents, hs, ih (attempt + 1)]

theorem annotateBatchEvents_cons (query : String) (maxRetries : Nat)
    (img : ImgSpec) (rest : List ImgSpec) :
    annotateBatchEvents query maxRetries (img :: rest) =
      (match img.dims? with
       | none => []
       | some (w, h) => annotateRetryEvents query img.resp w h maxRetries 0)
        ++ annotateBatchEvents query maxRetries rest := rfl

/-- C3 (counterexample).  An annotation run over a concrete image performs
a model call (`model.generate_content`, annotator.py line 185) whose event
trace contains no `rateLimiterWait` at all: the request is issued without
first passing through `RateLimiter.wait_for_token`, whose own trace is the
single gate event. -/
theorem rate_limiter_never_gates_counterexample :
    Event.modelCall ∈ annotateBatchEvents "dog" 3 [sampleImg] ∧
      (annotateBatchEvents "dog" 3 [sampleImg]).count
        Event.rateLimiterWait = 0 ∧
      waitForTokenEvents.count Event.rateLimiterWait = 1 := by
  refine ⟨?_, rfl, rfl⟩
  show Event.modelCall ∈ [Event.modelCall]
  exact List.mem_singleton_self _

/-- C3 (amended).  No call made by the annotation service ever passes
through the `RateLimiter`: under every collaborator behaviour, every image
batch, and every retry budget, the event trace of
`AnnotatorService.annotate` contains zero `rateLimiterWait` events —
`RateLimiter.wait_for_token` is defined (src/utils/rate_limiter.py) but
has no call site, so the model requests are issued ungated. -/
theorem rate_limiter_never_invoked (query : String) (maxRetries : Nat)
    (imgs : List ImgSpec) :
    (annotateBatchEvents query maxRetries imgs).count
      Event.rateLimiterWait = 0 := by
  induction imgs with
  | nil => rfl
  | cons img rest ih =>
    rw [annotateBatchEvents_cons, List.count_append, ih]
    cases hd : img.dims? with
    | none => simp
    | some wh =>
      obtain ⟨w, h⟩ := wh
      simp [annotateRetryEvents_no_wait]

/-! ### Annotation-validation lemmas -/

theorem allInRangeE_ok (l : List JVal) (b : Bool)
    (h : allInRangeE l = .ok b) : b = l.all coordInRange := by
  induction l generalizing b with
  | nil =>
    simp only [allInRangeE] at h
    cases h
    rfl
  | cons c rest ih =>
    cases c with
    | num q =>
      by_cases hq : 0 ≤ q ∧ q ≤ 1000
      · simp only [allInRangeE, if_pos hq] at h
        have hb := ih b h
        simp [List.all_cons, coordInRange, hq, hb]
      · simp only [allInRangeE, if_neg hq] at h
        cases h
        simp [List.all_cons, coordInRange, hq]
    | str s => simp only [allInRangeE] at h; cases h
    | arr elems => simp only [allInRangeE] at h; cases h
    | dict l? b? => simp only [allInRangeE] at h; cases h

theorem validateRecord_ok (it : JVal) (b : Bool)
    (h : validateRecord it = .ok b) : b = goodRecord it := by
  cases it with
  | num q => simp only [validateRecord] at h; cases h
  | str s =>
    by_cases hc : strContains s "bbox" = true
    · simp only [validateRecord, if_pos hc] at h; cases h
    · rw [Bool.not_eq_true] at hc
      simp only [validateRecord, hc, Bool.false_eq_true, if_false] at h
      cases h
      rfl
  | arr elems =>
    by_cases hc : elems.contains (JVal.str "bbox") = true
    · simp only [validateRecord, if_pos hc] at h; cases h
    · rw [Bool.not_eq_true] at hc
      simp only [validateRecord, hc, Bool.false_eq_true, if_false] at h
      cases h
      rfl
  | dict label? bbox? =>
    cases bbox? with
    | none =>
      simp only [validateRecord] at h
      cases h
      rfl
    | some v =>
      cases v with
      | arr bbox =>
        by_cases hlen : bbox.length = 4
        · simp only [validateRecord, if_pos hlen] at h
          have hb := allInRangeE_ok bbox b h
          simp [goodRecord, hlen, hb]
        · simp only [validateRecord, if_neg hlen] at h
          cases h
          simp [goodRecord, hlen]
      | num q => simp only [validateRecord] at h; cases h; rfl
      | str s => simp only [validateRecord] at h; cases h; rfl
      | dict l2 b2 => simp only [validateRecord] at h; cases h; rfl

theorem validateBboxes_ok (data : List JVal) :
    ∀ kept : List JVal, validateBboxes data = .ok kept →
      kept = data.filter goodRecord := by
  induction data with
  | nil =>
    intro kept h
    simp only [validateBboxes] at h
    cases h
    rfl
  | cons it rest ih =>
    intro kept h
    rw [validateBboxes] at h
    cases hr : validateRecord it with
    | error e => rw [hr] at h; cases h
    | ok b =>
      rw [hr] at h
      cases hv : validateBboxes rest with
      | error e => rw [hv] at h; cases h
      | ok tail =>
        rw [hv] at h
        cases h
        have hb := validateRecord_ok it b hr
        have ht := ih tail hv
        rw [List.filter_cons, ← hb, ← ht]

theorem annotateRetry_succeeds_iff (query : String)
    (resp : Nat → Option JVal) (width height : ℚ) :
    ∀ (n attempt : Nat),
      (∃ a, annotateRetry query resp width height n attempt = some a) ↔
        (∃ k, k < n ∧ ∃ a, annotateSingleImage query (resp (attempt + k))
          width height = some a) := by
  intro n
  induction n with
  | zero =>
    intro attempt
    constructor
    · rintro ⟨a, ha⟩
      simp only [annotateRetry] at ha
      cases ha
    · rintro ⟨k, hk, -⟩
      omega
  | succ m ih =>
    intro attempt
    rw [annotateRetry]
    cases hs : annotateSingleImage query (resp attempt) width height with
    | some a =>
      constructor
      · intro _
        refine ⟨0, by omega, a, ?_⟩
        rw [Nat.add_zero]
        exact hs
      · intro _
        exact ⟨a, rfl⟩
    | none =>
      constructor
      · intro hex
        obtain ⟨k, hk, a, ha⟩ := (ih (attempt + 1)).mp hex
        refine ⟨k + 1, by omega, a, ?_⟩
        have harith : attempt + (k + 1) = attempt + 1 + k := by omega
        rw [harith]
        exact ha
      · rintro ⟨k, hk, a, ha⟩
        cases k with
        | zero =>
          rw [Nat.add_zero] at ha
          rw [hs] at ha
          cases ha
        | succ k' =>
          refine (ih (attempt + 1)).mpr ⟨k', by omega, a, ?_⟩
          have harith : attempt + 1 + k' = attempt + (k' + 1) := by omega
          rw [harith]
          exact ha

theorem annotate_foldl_go (query : String) (maxRetries : Nat) :
    ∀ (imgs : List ImgSpec) (acc : List (String × AnnotData)),
      imgs.foldl
        (fun acc img =>
          match img.dims? with
          | none => acc
          | some (w, h) =>
            match annotateRetry query img.resp w h maxRetries 0 with
            | some a => acc ++ [(img.name, a)]
            | none => acc)
        acc
      = acc ++ imgs.filterMap (fun img =>
          match img.dims? with
          | none => none
          | some (w, h) =>
            (annotateRetry query img.resp w h maxRetries 0).map
              (fun a => (img.name, a))) := by
  intro imgs
  induction imgs with
  | nil => intro acc; simp
  | cons img rest ih =>
    intro acc
    rw [List.foldl_cons, List.filterMap_cons]
    cases hd : img.dims? with
    | none =>
      simp only [hd]
      exact ih acc
    | some wh =>
      obtain ⟨w, h⟩ := wh
      simp only [hd]
      cases hr : annotateRetry query img.resp w h maxRetries 0 with
      | some a =>
        simp only [hr, Option.map_some]
        rw [ih (acc ++ [(img.name, a)]), List.append_assoc]
        rfl
      | none =>
        simp only [hr, Option.map_none]
        exact ih acc

/-- C8 (counterexample).  A record whose bounding box is perfectly valid is
nonetheless lost when a sibling record carries a non-numeric coordinate:
`0 <= coord` raises `TypeError`, the `except` at annotator.py line 234
catches it, and the whole image's attempt returns `None` — the invalid
record is *not* dropped individually.  Alone, the same valid record is
kept. -/
theorem invalid_record_fails_whole_image :
    goodRecord sampleGoodRecord = true ∧
      goodRecord sampleBadRecord = false ∧
      annotateSingleImage "dog" (some (.arr [sampleGoodRecord])) 10 10 =
        some ⟨[sampleGoodRecord], 10, 10⟩ ∧
      annotateSingleImage "dog"
        (some (.arr [sampleGoodRecord, sampleBadRecord])) 10 10 = none := by
  refine ⟨?_, ?_, ?_, ?_⟩ <;> rfl

/-- C8 (amended).  When the validation loop completes without raising, the
kept records are exactly those whose `bbox` is a list of four numeric
coordinates within `[0, 1000]` (invalid ones dropped individually) — but a
record whose bbox contains a non-numeric coordinate reached by the
left-to-right range check raises and fails the image's whole attempt.  An
attempt succeeds for an item iff one of its at-most-`n` retry attempts
succeeds, and the batch result keeps each image independently: items whose
every attempt fails (zero valid records included) are omitted without
aborting the rest. -/
theorem record_validation_and_retry (data kept : List JVal) (query : String)
    (maxRetries n attempt : Nat) (resp : Nat → Option JVal)
    (width height : ℚ) (imgs : List ImgSpec)
    (hok : validateBboxes data = .ok kept) :
    kept = data.filter goodRecord ∧
      ((∃ a, annotateRetry query resp width height n attempt = some a) ↔
        (∃ k, k < n ∧ ∃ a, annotateSingleImage query (resp (attempt + k))
          width height = some a)) ∧
      annotate query maxRetries imgs = imgs.filterMap (fun img =>
        match img.dims? with
        | none => none
        | some (w, h) =>
          (annotateRetry query img.resp w h maxRetries 0).map
            (fun a => (img.name, a))) := by
  refine ⟨validateBboxes_ok data kept hok,
    annotateRetry_succeeds_iff query resp width height n attempt, ?_⟩
  unfold annotate
  rw [annotate_foldl_go]
  rfl

/-- Witness for `record_validation_and_retry` at concrete inputs. -/
theorem record_validation_and_retry_witness :
    [sampleGoodRecord] = [sampleGoodRecord].filter goodRecord ∧
      ((∃ a, annotateRetry "dog" sampleImg.resp 10 10 3 0 = some a) ↔
        (∃ k, k < 3 ∧ ∃ a, annotateSingleImage "dog"
          (sampleImg.resp (0 + k)) 10 10 = some a)) ∧
      annotate "dog" 3 [sampleImg] = [sampleImg].filterMap (fun img =>
        match img.dims? with
        | none => none
        | some (w, h) =>
          (annotateRetry "dog" img.resp w h 3 0).map
            (fun a => (img.name, a))) :=
  record_validation_and_retry [sampleGoodRecord] [sampleGoodRecord]
    "dog" 3 3 0 sampleImg.resp 10 10 [sampleImg] (by rfl)

/-! ### Quality-loop lemmas -/

theorem refineLoop_succ_noText {β : Type}
    (aO : Nat → List HistEntry → RoundAnnot β)
    (vO : Nat → List HistEntry → RoundValid) (w h : ℚ) (fuel iter : Nat)
    (best : Option (QCandidate β)) (hist : List HistEntry)
    (ha : aO (iter + 1) hist = .noText) :
    refineLoop aO vO w h (fuel + 1) iter best hist =
      refineLoop aO vO w h fuel (iter + 1) best hist := by
  simp only [refineLoop, ha]

theorem refineLoop_succ_raises {β : Type}
    (aO : Nat → List HistEntry → RoundAnnot β)
    (vO : Nat → List HistEntry → RoundValid) (w h : ℚ) (fuel iter : Nat)
    (best : Option (QCandidate β)) (hist : List HistEntry) (msg : String)
    (ha : aO (iter + 1) hist = .raises msg) :
    refineLoop aO vO w h (fuel + 1) iter best hist =
      refineLoop aO vO w h fuel (iter + 1) best
        (hist ++ [.error (iter + 1) msg]) := by
  simp only [refineLoop, ha]

theorem refineLoop_succ_parsedOther {β : Type}
    (aO : Nat → List HistEntry → RoundAnnot β)
    (vO : Nat → List HistEntry → RoundValid) (w h : ℚ) (fuel iter : Nat)
    (best : Option (QCandidate β)) (hist : List HistEntry)
    (ha : aO (iter + 1) hist = .parsedOther) :
    refineLoop aO vO w h (fuel + 1) iter best hist =
      refineLoop aO vO w h fuel (iter + 1) best hist := by
  simp only [refineLoop, ha]

theorem refineLoop_succ_parsedNil {β : Type}
    (aO : Nat → List HistEntry → RoundAnnot β)
    (vO : Nat → List HistEntry → RoundValid) (w h : ℚ) (fuel iter : Nat)
    (best : Option (QCandidate β)) (hist : List HistEntry)
    (ha : aO (iter + 1) hist = .parsedList []) :
    refineLoop aO vO w h (fuel + 1) iter best hist =
      refineLoop aO vO w h fuel (iter + 1) best hist := by
  simp only [refineLoop, ha]

theorem refineLoop_succ_validRaises {β : Type}
    (aO : Nat → List HistEntry → RoundAnnot β)
    (vO : Nat → List HistEntry → RoundValid) (w h : ℚ) (fuel iter : Nat)
    (best : Option (QCandidate β)) (hist : List HistEntry) (b : β)
    (bs : List β) (msg : String)
    (ha : aO (iter + 1) hist = .parsedList (b :: bs))
    (hv : vO (iter + 1) hist = .raises msg) :
    refineLoop aO vO w h (fuel + 1) iter best hist =
      refineLoop aO vO w h fuel (iter + 1) best
        (hist ++ [.error (iter + 1) msg]) := by
  simp only [refineLoop, ha, hv]

theorem refineLoop_succ_notApproved {β : Type}
    (aO : Nat → List HistEntry → RoundAnnot β)
    (vO : Nat → List HistEntry → RoundValid) (w h : ℚ) (fuel iter : Nat)
    (best : Option (QCandidate β)) (hist : List HistEntry) (b : β)
    (bs : List β) (status feedback : String) (issues : List String)
    (ha : aO (iter + 1) hist = .parsedList (b :: bs))
    (hv : vO (iter + 1) hist = .result status feedback issues)
    (hs : ¬status = "APPROVED") :
    refineLoop aO vO w h (fuel + 1) iter best hist =
      refineLoop aO vO w h fuel (iter + 1) (some ⟨b :: bs, w, h⟩)
        (hist ++ [.entry (iter + 1) (b :: bs).length status feedback
          issues]) := by
  simp only [refineLoop, ha, hv, if_neg hs]

theorem refineLoop_succ_approved {β : Type}
    (aO : Nat → List HistEntry → RoundAnnot β)
    (vO : Nat → List HistEntry → RoundValid) (w h : ℚ) (fuel iter : Nat)
    (best : Option (QCandidate β)) (hist : List HistEntry) (b : β)
    (bs : List β) (feedback : String) (issues : List String)
    (ha : aO (iter + 1) hist = .parsedList (b :: bs))
    (hv : vO (iter + 1) hist = .result "APPROVED" feedback issues) :
    refineLoop aO vO w h (fuel + 1) iter best hist =
      (iter + 1, some ⟨b :: bs, w, h⟩,
        hist ++ [.entry (iter + 1) (b :: bs).length "APPROVED" feedback
          issues]) := by
  simp only [refineLoop, ha, hv]
  simp

theorem refineLoop_iter_le {β : Type}
    (aO : Nat → List HistEntry → RoundAnnot β)
    (vO : Nat → List HistEntry → RoundValid) (w h : ℚ) :
    ∀ (fuel iter : Nat) (best : Option (QCandidate β))
      (hist : List HistEntry),
      (refineLoop aO vO w h fuel iter best hist).1 ≤ iter + fuel := by
  intro fuel
  induction fuel with
  | zero => intro iter best hist; simp [refineLoop]
  | succ m ih =>
    intro iter best hist
    cases ha : aO (iter + 1) hist with
    | noText =>
      rw [refineLoop_succ_noText aO vO w h m iter best hist ha]
      have := ih (iter + 1) best hist
      omega
    | raises msg =>
      rw [refineLoop_succ_raises aO vO w h m iter best hist msg ha]
      have := ih (iter + 1) best (hist ++ [.error (iter + 1) msg])
      omega
    | parsedOther =>
      rw [refineLoop_succ_parsedOther aO vO w h m iter best hist ha]
      have := ih (iter + 1) best hist
      omega
    | parsedList boxes =>
      cases boxes with
      | nil =>
        rw [refineLoop_succ_parsedNil aO vO w h m iter best hist ha]
        have := ih (iter + 1) best hist
        omega
      | cons b bs =>
        cases hv : vO (iter + 1) hist with
        | raises msg =>
          rw [refineLoop_succ_validRaises aO vO w h m iter best hist b bs
            msg ha hv]
          have := ih (iter + 1) best (hist ++ [.error (iter + 1) msg])
          omega
        | result status feedback issues =>
          by_cases hs : status = "APPROVED"
          · subst hs
            rw [refineLoop_succ_approved aO vO w h m iter best hist b bs
              feedback issues ha hv]
            omega
          · rw [refineLoop_succ_notApproved aO vO w h m iter best hist b bs
              status feedback issues ha hv hs]
            have := ih (iter + 1) (some ⟨b :: bs, w, h⟩)
              (hist ++ [.entry (iter + 1) (b :: bs).length status feedback
                issues])
            omega

theorem refineLoop_hist_inv {β : Type}
    (aO : Nat → List HistEntry → RoundAnnot β)
    (vO : Nat → List HistEntry → RoundValid) (w h : ℚ) :
    ∀ (fuel iter : Nat) (best : Option (QCandidate β))
      (hist : List HistEntry),
      (∀ e ∈ hist, e.isApproved = false) →
      (best.isSome = true → hist ≠ []) →
      ((∀ e ∈ (refineLoop aO vO w h fuel iter best hist).2.2.dropLast,
          e.isApproved = false) ∧
        ((refineLoop aO vO w h fuel iter best hist).2.1.isSome = true →
          (refineLoop aO vO w h fuel iter best hist).2.2 ≠ [])) := by
  intro fuel
  induction fuel with
  | zero =>
    intro iter best hist hinv hbest
    simp only [refineLoop]
    exact ⟨fun e he => hinv e (List.dropLast_subset hist he), hbest⟩
  | succ m ih =>
    intro iter best hist hinv hbest
    cases ha : aO (iter + 1) hist with
    | noText =>
      rw [refineLoop_succ_noText aO vO w h m iter best hist ha]
      exact ih (iter + 1) best hist hinv hbest
    | raises msg =>
      rw [refineLoop_succ_raises aO vO w h m iter best hist msg ha]
      refine ih (iter + 1) best (hist ++ [.error (iter + 1) msg]) ?_ ?_
      · intro e he
        rcases List.mem_append.mp he with hin | hin
        · exact hinv e hin
        · rw [List.mem_singleton] at hin
          rw [hin]
          rfl
      · intro _
        simp
    | parsedOther =>
      rw [refineLoop_succ_parsedOther aO vO w h m iter best hist ha]
      exact ih (iter + 1) best hist hinv hbest
    | parsedList boxes =>
      cases boxes with
      | nil =>
        rw [refineLoop_succ_parsedNil aO vO w h m iter best hist ha]
        exact ih (iter + 1) best hist hinv hbest
      | cons b bs =>
        cases hv : vO (iter + 1) hist with
        | raises msg =>
          rw [refineLoop_succ_validRaises aO vO w h m iter best hist b bs
            msg ha hv]
          refine ih (iter + 1) best (hist ++ [.error (iter + 1) msg]) ?_ ?_
          · intro e he
            rcases List.mem_append.mp he with hin | hin
            · exact hinv e hin
            · rw [List.mem_singleton] at hin
              rw [hin]
              rfl
          · intro _
            simp
        | result status feedback issues =>
          by_cases hs : status = "APPROVED"
          · subst hs
            rw [refineLoop_succ_approved aO vO w h m iter best hist b bs
              feedback issues ha hv]
            constructor
            · intro e he
              rw [List.dropLast_concat] at he
              exact hinv e he
            · intro _
              simp
          · rw [refineLoop_succ_notApproved aO vO w h m iter best hist b bs
              status feedback issues ha hv hs]
            refine ih (iter + 1) (some ⟨b :: bs, w, h⟩)
              (hist ++ [.entry (iter + 1) (b :: bs).length status feedback
                issues]) ?_ ?_
            · intro e he
              rcases List.mem_append.mp he with hin | hin
              · exact hinv e hin
              · rw [List.mem_singleton] at hin
                rw [hin]
                simp [HistEntry.isApproved, hs]
            · intro _
              simp

theorem annotate_with_refinement_final_status {β : Type}
    (aO : Nat → List HistEntry → RoundAnnot β)
    (vO : Nat → List HistEntry → RoundValid) (maxIter : Nat) (w h : ℚ)
    (r : QResult β)
    (hr : annotate_with_refinement aO vO maxIter w h = .ok (some r)) :
    r.iterations ≤ maxIter ∧
      ∃ i nb fb iss, r.history.getLast? =
        some (.entry i nb r.final_status fb iss) := by
  have hinv := refineLoop_hist_inv aO vO w h maxIter 0 none []
    (by intro e he; cases he) (by intro hcontra; cases hcontra)
  have hle := refineLoop_iter_le aO vO w h maxIter 0 none []
  simp only [annotate_with_refinement] at hr
  cases hbest : (refineLoop aO vO w h maxIter 0 none []).2.1 with
  | none => rw [hbest] at hr; simp at hr
  | some a =>
    rw [hbest] at hr
    cases hl : (refineLoop aO vO w h maxIter 0 none []).2.2.getLast? with
    | none =>
      have hne := hinv.2 (by rw [hbest]; rfl)
      rw [List.getLast?_eq_none_iff] at hl
      exact absurd hl hne
    | some e =>
      rw [hl] at hr
      cases e with
      | entry i nb st fb iss =>
        simp only [Except.ok.injEq, Option.some.injEq] at hr
        subst hr
        refine ⟨by simpa using hle, i, nb, fb, iss, ?_⟩
        exact hl
      | error i msg =>
        simp at hr

/-- C9.  The quality refinement loop runs at most `max_iterations` rounds;
it stops at the first APPROVED verdict (every history entry before the
last carries a non-APPROVED verdict or is an error record); and whenever
`annotate_with_refinement` returns a non-null result, that result's
reported `final_status` is exactly the validation verdict recorded in the
last entry of the refinement trace. -/
theorem quality_loop_terminates_and_reports {β : Type}
    (aO : Nat → List HistEntry → RoundAnnot β)
    (vO : Nat → List HistEntry → RoundValid) (maxIter : Nat) (w h : ℚ)
    (r : QResult β) :
    (refineLoop aO vO w h maxIter 0 none []).1 ≤ maxIter ∧
      (∀ e ∈ (refineLoop aO vO w h maxIter 0 none []).2.2.dropLast,
        e.isApproved = false) ∧
      (annotate_with_refinement aO vO maxIter w h = .ok (some r) →
        r.iterations ≤ maxIter ∧
          ∃ i nb fb iss, r.history.getLast? =
            some (.entry i nb r.final_status fb iss)) := by
  refine ⟨by simpa using refineLoop_iter_le aO vO w h maxIter 0 none [], ?_,
    annotate_with_refinement_final_status aO vO maxIter w h r⟩
  exact (refineLoop_hist_inv aO vO w h maxIter 0 none []
    (by intro e he; cases he) (by intro hcontra; cases hcontra)).1

/-- Witness for `quality_loop_terminates_and_reports` at concrete
collaborator behaviours: round 1 is sent back for improvement, round 2 is
approved, the loop stops there, and the reported final status is the
approval verdict of the last trace entry. -/
theorem quality_loop_terminates_and_reports_witness :
    (refineLoop qlAnnotO qlValidO 10 10 3 0 none []).1 ≤ 3 ∧
      HistEntry.isApproved
        (HistEntry.entry 1 1 "NEEDS_IMPROVEMENT" "tighten boxes" [])
        = false ∧
      (qlResult.iterations ≤ 3 ∧
        ∃ i nb fb iss, qlResult.history.getLast? =
          some (.entry i nb qlResult.final_status fb iss)) := by
  have t := quality_loop_terminates_and_reports qlAnnotO qlValidO 3 10 10
    qlResult
  exact ⟨t.1, t.2.1 _ (by decide), t.2.2 (by rfl)⟩
